import Mathlib

/-!
# Verification of the Sorosave webhook notification service

Shallow embedding of `src/webhook/index.ts` (the `WebhookService` class):
the signature service (HMAC-SHA256 over payload bytes), the webhook
registry, the event dispatcher and the delivery engine with its
retry/backoff loop.

Modelling conventions:
* JS strings that are hashed or compared byte-wise (payloads, secrets,
  signatures) are `List Nat` of byte values; other strings stay `String`.
* `Date.now()` / `new Date()`: operations take the current time as an
  explicit `now : Nat` argument.
* `generateId` (`Date.now()` plus a random base-36 suffix in the source)
  is modelled as a fresh-id supply: a counter threaded through the
  service state, which captures the generator's evident contract of
  producing ids distinct from all previously generated ones.
* The HTTP transport (`fetch`) is an oracle argument giving each
  attempt's outcome; `executeDelivery` classifies the outcome exactly as
  the source does (`!response.ok` throws `HTTP <status>: <body>`).
* `crypto.createHmac("sha256", secret)` is the real HMAC-SHA256 (FIPS
  198 / FIPS 180-4), implemented executably below.
* `crypto.timingSafeEqual` returns byte equality when the two buffers
  have equal length and throws a `RangeError` otherwise; exceptions are
  modelled with `Except`.
-/

namespace Sorosave

/-! ## SHA-256 (FIPS 180-4), executable over byte lists -/

/-- Word size modulus for 32-bit arithmetic. -/
def w32 : Nat := 4294967296

/-- Addition modulo 2^32. -/
def add32 (a b : Nat) : Nat := (a + b) % w32

/-- Bitwise complement on 32-bit words (argument assumed reduced mod 2^32). -/
def not32 (a : Nat) : Nat := 4294967295 - a % w32

/-- Rotate a 32-bit word right by `n`. -/
def rotr32 (n x : Nat) : Nat := ((x >>> n) ||| (x <<< (32 - n))) % w32

/-- SHA-256 Σ₀. -/
def bigSigma0 (x : Nat) : Nat := rotr32 2 x ^^^ rotr32 13 x ^^^ rotr32 22 x

/-- SHA-256 Σ₁. -/
def bigSigma1 (x : Nat) : Nat := rotr32 6 x ^^^ rotr32 11 x ^^^ rotr32 25 x

/-- SHA-256 σ₀. -/
def smallSigma0 (x : Nat) : Nat := rotr32 7 x ^^^ rotr32 18 x ^^^ (x >>> 3)

/-- SHA-256 σ₁. -/
def smallSigma1 (x : Nat) : Nat := rotr32 17 x ^^^ rotr32 19 x ^^^ (x >>> 10)

/-- SHA-256 Ch function. -/
def chFn (x y z : Nat) : Nat := (x &&& y) ^^^ (not32 x &&& z)

/-- SHA-256 Maj function. -/
def majFn (x y z : Nat) : Nat := (x &&& y) ^^^ (x &&& z) ^^^ (y &&& z)

/-- The 64 SHA-256 round constants (FIPS 180-4 section 4.2.2, written
in decimal). -/
def sha256K : List Nat :=
  [1116352408, 1899447441, 3049323471, 3921009573, 961987163, 1508970993,
   2453635748, 2870763221, 3624381080, 310598401, 607225278, 1426881987,
   1925078388, 2162078206, 2614888103, 3248222580, 3835390401, 4022224774,
   264347078, 604807628, 770255983, 1249150122, 1555081692, 1996064986,
   2554220882, 2821834349, 2952996808, 3210313671, 3336571891, 3584528711,
   113926993, 338241895, 666307205, 773529912, 1294757372, 1396182291,
   1695183700, 1986661051, 2177026350, 2456956037, 2730485921, 2820302411,
   3259730800, 3345764771, 3516065817, 3600352804, 4094571909, 275423344,
   430227734, 506948616, 659060556, 883997877, 958139571, 1322822218,
   1537002063, 1747873779, 1955562222, 2024104815, 2227730452, 2361852424,
   2428436474, 2756734187, 3204031479, 3329325298]

/-- The SHA-256 initial hash value (FIPS 180-4 section 5.3.3, written
in decimal). -/
def sha256H0 : List Nat :=
  [1779033703, 3144134277, 1013904242, 2773480762,
   1359893119, 2600822924, 528734635, 1541459225]

/-- Big-endian 8-byte encoding of the bit length of a message of `l` bytes. -/
def lenBytes64 (l : Nat) : List Nat :=
  let b := l * 8
  [(b >>> 56) % 256, (b >>> 48) % 256, (b >>> 40) % 256, (b >>> 32) % 256,
   (b >>> 24) % 256, (b >>> 16) % 256, (b >>> 8) % 256, b % 256]

/-- SHA-256 padding: append `0x80`, zeros to 56 mod 64, then the bit length. -/
def padMessage (msg : List Nat) : List Nat :=
  let z := (64 + 56 - (msg.length + 1) % 64) % 64
  msg ++ 0x80 :: List.replicate z 0 ++ lenBytes64 msg.length

/-- Group a byte list into big-endian 32-bit words (fuel-driven). -/
def bytesToWordsAux : Nat → List Nat → List Nat
  | 0, _ => []
  | _ + 1, [] => []
  | fuel + 1, b0 :: b1 :: b2 :: b3 :: rest =>
      (b0 <<< 24 ||| b1 <<< 16 ||| b2 <<< 8 ||| b3) :: bytesToWordsAux fuel rest
  | _ + 1, _ => []

/-- Group a byte list into big-endian 32-bit words. -/
def bytesToWords (bs : List Nat) : List Nat := bytesToWordsAux bs.length bs

/-- Split a byte list into 64-byte blocks (fuel-driven). -/
def blocks64Aux : Nat → List Nat → List (List Nat)
  | 0, _ => []
  | _ + 1, [] => []
  | fuel + 1, bs => bs.take 64 :: blocks64Aux fuel (bs.drop 64)

/-- Split a (padded) byte list into 64-byte blocks. -/
def blocks64 (bs : List Nat) : List (List Nat) := blocks64Aux bs.length bs

/-- Extend a 16-word message schedule by `n` further words. -/
def extendW : Nat → List Nat → List Nat
  | 0, w => w
  | n + 1, w =>
      let t := w.length
      let nw := add32 (add32 (smallSigma1 (w.getD (t - 2) 0)) (w.getD (t - 7) 0))
                      (add32 (smallSigma0 (w.getD (t - 15) 0)) (w.getD (t - 16) 0))
      extendW n (w ++ [nw])

/-- One SHA-256 compression round: state `[a,b,c,d,e,f,g,h]`, inputs `(Kₜ, Wₜ)`. -/
def sha256Round (st : List Nat) (kw : Nat × Nat) : List Nat :=
  match st with
  | [a, b, c, d, e, f, g, h] =>
      let t1 := add32 (add32 (add32 h (bigSigma1 e)) (add32 (chFn e f g) kw.1)) kw.2
      let t2 := add32 (bigSigma0 a) (majFn a b c)
      [add32 t1 t2, a, b, c, add32 d t1, e, f, g]
  | _ => st

/-- Compress one 64-byte block into the running hash state. -/
def processBlock (h : List Nat) (block : List Nat) : List Nat :=
  let w := extendW 48 (bytesToWords block)
  let st := (sha256K.zip w).foldl sha256Round h
  (h.zip st).map (fun p => add32 p.1 p.2)

/-- Big-endian bytes of a list of 32-bit words. -/
def wordsToBytes (ws : List Nat) : List Nat :=
  ws.flatMap (fun w => [(w >>> 24) % 256, (w >>> 16) % 256, (w >>> 8) % 256, w % 256])

/-- SHA-256 of a byte list: 32 digest bytes. -/
def sha256 (msg : List Nat) : List Nat :=
  wordsToBytes ((blocks64 (padMessage msg)).foldl processBlock sha256H0)

/-- HMAC-SHA256 (FIPS 198): 32 digest bytes, as produced by Node's
`crypto.createHmac("sha256", key).update(msg).digest()`. -/
def hmacSha256 (key msg : List Nat) : List Nat :=
  let k0 := if 64 < key.length then sha256 key else key
  let kpad := k0 ++ List.replicate (64 - k0.length) 0
  let ipad := kpad.map (fun b => b ^^^ 0x36)
  let opad := kpad.map (fun b => b ^^^ 0x5c)
  sha256 (opad ++ sha256 (ipad ++ msg))

/-- ASCII code of a lowercase hex digit, as produced by `digest("hex")`. -/
def hexDigit (n : Nat) : Nat := if n < 10 then 48 + n else 87 + n

/-- Lowercase hex encoding of a byte list, as ASCII bytes. -/
def hexEncode (bs : List Nat) : List Nat :=
  bs.flatMap (fun b => [hexDigit (b % 256 / 16), hexDigit (b % 16)])

/-! ## Data model (`WebhookConfig`, `WebhookEvent`, `WebhookDelivery`) -/

/-- Status of a delivery record (`"pending" | "success" | "failed"`). -/
inductive DeliveryStatus
  | pending
  | success
  | failed
deriving DecidableEq, Repr

/-- Model of `WebhookConfig` from `src/webhook/index.ts`.  `secret` is the optional
shared secret as bytes; `createdAt` is a timestamp. -/
structure WebhookConfig where
  id : Nat
  url : String
  events : List String
  secret : Option (List Nat)
  active : Bool
  createdAt : Nat
  retryCount : Nat
deriving DecidableEq, Repr

/-- Model of `WebhookEvent` from the source: one triggered event. -/
structure WebhookEvent where
  type : String
  data : String
  timestamp : Nat
  id : Nat
deriving DecidableEq, Repr

/-- Model of `WebhookDelivery` from the source: the record of one delivery
attempt-sequence.  Optional fields are `Option`; `completedAt` is set only
on a terminal transition. -/
structure WebhookDelivery where
  id : Nat
  webhookId : Nat
  eventId : Nat
  status : DeliveryStatus
  attempts : Nat
  responseStatus : Option Nat
  responseBody : Option String
  error : Option String
  createdAt : Nat
  completedAt : Option Nat
deriving DecidableEq, Repr

/-- Notifications emitted through the `EventEmitter` interface
(`webhook:registered`, `webhook:deleted`, `webhook:updated`,
`event:triggered`, `delivery:success`, `delivery:failed`). -/
inductive Emitted
  | webhookRegistered (w : WebhookConfig)
  | webhookDeleted (id : Nat)
  | webhookUpdated (w : WebhookConfig)
  | eventTriggered (e : WebhookEvent)
  | deliverySuccess (d : WebhookDelivery)
  | deliveryFailed (d : WebhookDelivery)
deriving DecidableEq, Repr

/-- The service state: the two `Map`s (`webhooks`, `deliveries`) of the
`WebhookService` class as insertion-ordered association lists, plus the
fresh-id counter standing for `generateId`. -/
structure ServiceState where
  webhooks : List (Nat × WebhookConfig)
  deliveries : List (Nat × WebhookDelivery)
  nextId : Nat
deriving DecidableEq, Repr

/-! ### JS `Map` operations as insertion-ordered association lists -/

/-- Model of `Map.get`: the value at the first (unique) matching key. -/
def mapLookup {α : Type} (k : Nat) (m : List (Nat × α)) : Option α :=
  (m.find? (fun p => p.1 == k)).map Prod.snd

/-- Model of `Map.set`: update in place if the key is present, else append. -/
def mapSet {α : Type} (m : List (Nat × α)) (k : Nat) (v : α) : List (Nat × α) :=
  if m.any (fun p => p.1 == k) then
    m.map (fun p => if p.1 == k then (k, v) else p)
  else
    m ++ [(k, v)]

/-- Model of `Map.delete`: remove the entry with the given key. -/
def mapDelete {α : Type} (k : Nat) (m : List (Nat × α)) : List (Nat × α) :=
  m.filter (fun p => p.1 != k)

/-- Model of `Map.values`, in insertion order. -/
def mapValues {α : Type} (m : List (Nat × α)) : List α :=
  m.map Prod.snd

/-- Well-formedness of a service state: every stored key is below the
fresh-id counter and coheres with the stored record's own `id` field.
Every state reachable through the service's operations satisfies this. -/
def wfState (st : ServiceState) : Bool :=
  st.webhooks.all (fun p => decide (p.1 < st.nextId) && (p.2.id == p.1)) &&
  st.deliveries.all (fun p => decide (p.1 < st.nextId) && (p.2.id == p.1))

/-! ## The signature service -/

namespace WebhookService

/-- Constant `this.maxRetries` from the source. -/
def maxRetries : Nat := 3

/-- Constant `this.retryDelays` from the source, in milliseconds (1s, 5s, 15s). -/
def retryDelays : List Nat := [1000, 5000, 15000]

/-- The ASCII bytes of the string `sha256=`. -/
def sigHeaderBytes : List Nat := [115, 104, 97, 50, 53, 54, 61]

/-- Model of `generateSignature(payload, secret)`: `sha256=` followed by the
lowercase hex HMAC-SHA256 digest of the payload keyed by the secret
(`crypto.createHmac("sha256", secret).update(payload).digest("hex")`). -/
def generateSignature (payload secret : List Nat) : List Nat :=
  sigHeaderBytes ++ hexEncode (hmacSha256 secret payload)

/-- Node's `crypto.timingSafeEqual(a, b)`: byte equality when the two
buffers have equal byte length; throws a `RangeError` otherwise.  The
throw is modelled as `Except.error` with Node's message. -/
def timingSafeEqual (a b : List Nat) : Except String Bool :=
  if a.length = b.length then .ok (a == b)
  else .error "Input buffers must have the same byte length"

/-- Model of `verifySignature(payload, signature, secret)`: recomputes the expected
signature and compares with `crypto.timingSafeEqual`; the result is
`Except` because `timingSafeEqual` throws on length mismatch. -/
def verifySignature (payload signature secret : List Nat) : Except String Bool :=
  timingSafeEqual signature (generateSignature payload secret)

/-! ## The webhook registry -/

/-- Success of Node's `new URL(url)` (WHATWG): an absolute URL must begin
with a scheme — an ASCII letter followed by letters, digits, `+`, `-` or
`.`, then `:`.  Library code outside the repository, modelled by the
scheme check, which is what the registration inputs exercise. -/
def splitScheme : List Char → Option (List Char × List Char)
  | [] => none
  | c :: cs =>
      if c = ':' then some ([], cs)
      else match splitScheme cs with
           | some (a, b) => some (c :: a, b)
           | none => none

/-- Whether a character may appear in a URL scheme after the first. -/
def isSchemeChar (c : Char) : Bool :=
  c.isAlphanum || c = '+' || c = '-' || c = '.'

/-- Whether `new URL(url)` succeeds: see `splitScheme`. -/
def isValidURL (s : String) : Bool :=
  match splitScheme s.toList with
  | some (c :: cs, _) => c.isAlpha && cs.all isSchemeChar
  | _ => false

/-- Model of `registerWebhook(url, events, secret)`: validates the URL, then the
event list, and only then builds and stores the subscription; both
validation failures throw before any mutation, so an `Except.error`
result leaves the registry exactly as the caller's state. -/
def registerWebhook (url : String) (events : List String)
    (secret : Option (List Nat)) (now : Nat) (st : ServiceState) :
    Except String (WebhookConfig × ServiceState × List Emitted) :=
  if !isValidURL url then
    .error "Invalid webhook URL"
  else if events.length = 0 then
    .error "At least one event type is required"
  else
    let webhook : WebhookConfig :=
      { id := st.nextId, url := url, events := events, secret := secret,
        active := true, createdAt := now, retryCount := 0 }
    .ok (webhook,
         { st with webhooks := mapSet st.webhooks webhook.id webhook,
                   nextId := st.nextId + 1 },
         [.webhookRegistered webhook])

/-- Model of `listWebhooks()`. -/
def listWebhooks (st : ServiceState) : List WebhookConfig :=
  mapValues st.webhooks

/-- Model of `getWebhook(id)`. -/
def getWebhook (id : Nat) (st : ServiceState) : Option WebhookConfig :=
  mapLookup id st.webhooks

/-- Model of `deleteWebhook(id)`: removes the entry, returns whether it existed,
emits `webhook:deleted` on success only. -/
def deleteWebhook (id : Nat) (st : ServiceState) :
    Bool × ServiceState × List Emitted :=
  let deleted := st.webhooks.any (fun p => p.1 == id)
  (deleted,
   { st with webhooks := mapDelete id st.webhooks },
   if deleted then [.webhookDeleted id] else [])

/-- Model of `updateWebhookStatus(id, active)`. -/
def updateWebhookStatus (id : Nat) (active : Bool) (st : ServiceState) :
    Option WebhookConfig × ServiceState × List Emitted :=
  match mapLookup id st.webhooks with
  | some w =>
      let w2 := { w with active := active }
      (some w2, { st with webhooks := mapSet st.webhooks id w2 }, [.webhookUpdated w2])
  | none => (none, st, [])

/-- Model of `getDeliveries(webhookId?)`: all delivery records, filtered by owning
webhook when an id is given. -/
def getDeliveries (webhookId : Option Nat) (st : ServiceState) : List WebhookDelivery :=
  let deliveries := mapValues st.deliveries
  match webhookId with
  | some wid => deliveries.filter (fun d => d.webhookId == wid)
  | none => deliveries

/-- Model of `getDelivery(id)`. -/
def getDelivery (id : Nat) (st : ServiceState) : Option WebhookDelivery :=
  mapLookup id st.deliveries

/-! ## The delivery engine

The HTTP transport (`fetch` with its 30-second timeout) is an oracle
`http : Nat → HttpOutcome` giving attempt `i`'s outcome: either a
transport error or a response with status and body.  Header construction
(including the optional signature header) has no effect on the service
state and is elided; the outcome classification of `executeDelivery` is
kept exactly: a non-2xx response throws `HTTP <status>: <body>`. -/

/-- Outcome of one HTTP POST: transport failure, or a response. -/
inductive HttpOutcome
  | netError (msg : String)
  | response (status : Nat) (body : String)
deriving DecidableEq, Repr

/-- Model of `response.ok`: status in the 2xx range. -/
def is2xx (status : Nat) : Bool :=
  decide (200 ≤ status) && decide (status ≤ 299)

/-- Model of `executeDelivery`: its result for one attempt: a transport error
propagates as thrown; a non-2xx response throws `HTTP <status>: <body>`;
a 2xx response returns its status and body. -/
def executeDelivery (o : HttpOutcome) : Except String (Nat × String) :=
  match o with
  | .netError msg => .error msg
  | .response status body =>
      if is2xx status then .ok (status, body)
      else .error ("HTTP " ++ toString status ++ ": " ++ body)

/-- Result of the attempt loop of `sendWebhook`: the final delivery
record, the backoff delays waited (in order, milliseconds), the lifecycle
notifications emitted, and every state of the record observable in the
delivery store at a suspension point (the record is mutated in place in
the source, so the store always holds its current state; `states` lists
it at each `await` boundary and at the terminal transition). -/
structure AttemptResult where
  final : WebhookDelivery
  delays : List Nat
  emits : List Emitted
  states : List WebhookDelivery
deriving DecidableEq, Repr

/-- The retry loop of `sendWebhook`
(`for attempt = 0; attempt <= maxRetries; attempt++`), with the remaining
iteration count as structural fuel (`fuel = maxRetries + 1 - attempt` at
the top-level call).  Each iteration bumps `attempts`, runs one attempt,
and on failure either waits the scheduled backoff and retries, or marks
the delivery failed. -/
def attemptLoop (http : Nat → HttpOutcome) (now : Nat) :
    Nat → Nat → WebhookDelivery → AttemptResult
  | _, 0, d => { final := d, delays := [], emits := [], states := [] }
  | attempt, fuel + 1, d =>
      let d1 := { d with attempts := attempt + 1 }
      match executeDelivery (http attempt) with
      | .ok (status, _body) =>
          let d2 := { d1 with status := .success,
                              responseStatus := some status,
                              completedAt := some now }
          { final := d2, delays := [], emits := [.deliverySuccess d2],
            states := [d1, d2] }
      | .error e =>
          let d2 := { d1 with error := some e }
          if attempt < maxRetries then
            let r := attemptLoop http now (attempt + 1) fuel d2
            { r with delays := retryDelays.getD attempt 0 :: r.delays,
                     states := d1 :: d2 :: r.states }
          else
            let d3 := { d2 with status := .failed, completedAt := some now }
            let r := attemptLoop http now (attempt + 1) fuel d3
            { r with emits := .deliveryFailed d3 :: r.emits,
                     states := d1 :: d2 :: d3 :: r.states }

/-- Model of `sendWebhook(webhook, event)`: creates the pending record, stores it,
runs the attempt loop, and (because the source mutates the stored record
in place) the store finally holds the loop's final record. -/
def sendWebhook (http : Nat → HttpOutcome) (now : Nat)
    (webhook : WebhookConfig) (event : WebhookEvent) (st : ServiceState) :
    AttemptResult × ServiceState :=
  let delivery : WebhookDelivery :=
    { id := st.nextId, webhookId := webhook.id, eventId := event.id,
      status := .pending, attempts := 0, responseStatus := none,
      responseBody := none, error := none, createdAt := now,
      completedAt := none }
  let st1 : ServiceState :=
    { st with deliveries := mapSet st.deliveries delivery.id delivery,
              nextId := st.nextId + 1 }
  let r := attemptLoop http now 0 (maxRetries + 1) delivery
  ({ r with states := delivery :: r.states },
   { st1 with deliveries := mapSet st1.deliveries delivery.id r.final })

/-- The fan-out of `triggerEvent`: `Promise.all` over the matching
webhooks, modelled as a fold (the claims settled here do not depend on
the interleaving; each delivery owns its record).  `http i` is the
transport oracle for the `i`-th matching webhook. -/
def runDeliveries (http : Nat → Nat → HttpOutcome) (now : Nat)
    (event : WebhookEvent) :
    List WebhookConfig → Nat → ServiceState → ServiceState × List Emitted
  | [], _, st => (st, [])
  | w :: ws, i, st =>
      let r := sendWebhook (http i) now w event st
      let rest := runDeliveries http now event ws (i + 1) r.2
      (rest.1, r.1.emits ++ rest.2)

/-- Model of `triggerEvent(type, data)`: builds the event with a fresh id, emits
`event:triggered`, selects every stored subscription with
`active == true` whose event list contains the type, and hands each to
the delivery engine. -/
def triggerEvent (http : Nat → Nat → HttpOutcome) (now : Nat)
    (type : String) (data : String) (st : ServiceState) :
    ServiceState × List Emitted :=
  let event : WebhookEvent :=
    { type := type, data := data, timestamp := now, id := st.nextId }
  let st0 : ServiceState := { st with nextId := st.nextId + 1 }
  let matching :=
    (mapValues st0.webhooks).filter (fun w => w.active && w.events.contains type)
  let r := runDeliveries http now event matching 0 st0
  (r.1, .eventTriggered event :: r.2)

/-! ## Auxiliary predicates and concrete fixtures -/

/-- An attempt outcome that `executeDelivery` classifies as a failure,
with a non-empty error detail (every non-2xx response is one). -/
def attemptFailsNonempty (o : HttpOutcome) : Bool :=
  match executeDelivery o with
  | .error e => decide (e ≠ "")
  | .ok _ => false

/-- The C8 invariant: a delivery record's completed timestamp is set
exactly when its status is terminal. -/
def completedIffTerminal (d : WebhookDelivery) : Prop :=
  d.completedAt.isSome = true ↔ (d.status = .success ∨ d.status = .failed)

/-- Fixture: the empty service state. -/
def exState0 : ServiceState := { webhooks := [], deliveries := [], nextId := 0 }

/-- Fixture: an active subscription to `payout`. -/
def exConfig : WebhookConfig :=
  { id := 0, url := "https://example.com/hook", events := ["payout"],
    secret := none, active := true, createdAt := 0, retryCount := 0 }

/-- Fixture: an inactive subscription to `payout`. -/
def exConfigOff : WebhookConfig :=
  { id := 1, url := "https://example.com/hook", events := ["payout"],
    secret := none, active := false, createdAt := 0, retryCount := 0 }

/-- Fixture: an active subscription to a disjoint event set. -/
def exConfigOther : WebhookConfig :=
  { id := 2, url := "https://example.com/hook", events := ["deposit"],
    secret := none, active := true, createdAt := 0, retryCount := 0 }

/-- Fixture: a registry holding the three subscriptions above. -/
def exStateFull : ServiceState :=
  { webhooks := [(0, exConfig), (1, exConfigOff), (2, exConfigOther)],
    deliveries := [], nextId := 3 }

/-- Fixture: a triggered `payout` event. -/
def exEvent : WebhookEvent := { type := "payout", data := "d", timestamp := 0, id := 3 }

/-- Fixture: a destination answering HTTP 500 on every attempt. -/
def exHttpFail : Nat → HttpOutcome := fun _ => .response 500 "oops"

/-- Fixture: a destination failing the first attempt and succeeding on
the second. -/
def exHttpSecond : Nat → HttpOutcome := fun i =>
  if i = 0 then .response 500 "err" else .response 200 "ok"

/-- Fixture: a transport where every delivery succeeds at once. -/
def exHttpOk : Nat → Nat → HttpOutcome := fun _ _ => .response 200 "ok"

/-- Fixture: the delivery record as created (pending, nothing set). -/
def exDelivery0 : WebhookDelivery :=
  { id := 0, webhookId := 0, eventId := 3, status := DeliveryStatus.pending,
    attempts := 0, responseStatus := none, responseBody := none, error := none,
    createdAt := 0, completedAt := none }

end WebhookService

end Sorosave

set_option maxRecDepth 10000

/-! ## Proof development

Helper lemmas first, then one theorem per checked claim (with a witness
instantiation for every theorem that carries hypotheses). -/

namespace Sorosave

/-! ## Helper lemmas: digest and signature lengths -/

/-- One compression round preserves the 8-word state shape. -/
lemma sha256Round_length_eight (st : List Nat) (kw : Nat × Nat)
    (h : st.length = 8) : (sha256Round st kw).length = 8 := by
  rcases st with _ | ⟨a, _ | ⟨b, _ | ⟨c, _ | ⟨d, _ | ⟨e, _ | ⟨f, _ | ⟨g, _ | ⟨h8, _ | ⟨i, rest⟩⟩⟩⟩⟩⟩⟩⟩⟩ <;>
    simp_all [sha256Round]

/-- Folding compression rounds preserves the 8-word state shape. -/
lemma foldl_sha256Round_length (l : List (Nat × Nat)) (st : List Nat)
    (h : st.length = 8) : (l.foldl sha256Round st).length = 8 := by
  induction l generalizing st with
  | nil => simpa using h
  | cons kw l ih => exact ih _ (sha256Round_length_eight st kw h)

/-- Block compression preserves the 8-word hash state shape. -/
lemma processBlock_length (h block : List Nat) (hh : h.length = 8) :
    (processBlock h block).length = 8 := by
  unfold processBlock
  have h2 := foldl_sha256Round_length ((sha256K.zip (extendW 48 (bytesToWords block)))) h hh
  simp [List.length_zip, hh, h2]

/-- Folding block compressions preserves the 8-word hash state shape. -/
lemma foldl_processBlock_length (bs : List (List Nat)) (st : List Nat)
    (h : st.length = 8) : (bs.foldl processBlock st).length = 8 := by
  induction bs generalizing st with
  | nil => simpa using h
  | cons b bs ih => exact ih _ (processBlock_length st b h)

/-- Word serialization emits 4 bytes per word. -/
lemma wordsToBytes_length (ws : List Nat) : (wordsToBytes ws).length = 4 * ws.length := by
  induction ws with
  | nil => rfl
  | cons w ws ih => simp [wordsToBytes] at ih ⊢; omega

/-- A SHA-256 digest is 32 bytes. -/
lemma sha256_length (msg : List Nat) : (sha256 msg).length = 32 := by
  unfold sha256
  rw [wordsToBytes_length, foldl_processBlock_length _ _ (by rfl)]

/-- An HMAC-SHA256 digest is 32 bytes. -/
lemma hmacSha256_length (key msg : List Nat) : (hmacSha256 key msg).length = 32 :=
  sha256_length _

/-- Hex encoding emits 2 bytes per input byte. -/
lemma hexEncode_length (bs : List Nat) : (hexEncode bs).length = 2 * bs.length := by
  induction bs with
  | nil => rfl
  | cons b bs ih => simp [hexEncode] at ih ⊢; omega

namespace WebhookService

/-- A generated signature is always 71 bytes: `sha256=` plus 64 hex digits. -/
lemma generateSignature_length (payload secret : List Nat) :
    (generateSignature payload secret).length = 71 := by
  unfold generateSignature
  rw [List.length_append, hexEncode_length, hmacSha256_length]
  rfl

end WebhookService

/-! ## Helper lemmas: association-list maps -/

/-- A `Map.set` with a key absent from the map appends the new entry. -/
lemma mapSet_fresh {α : Type} (m : List (Nat × α)) (k : Nat) (v : α)
    (h : ∀ p ∈ m, p.1 ≠ k) : mapSet m k v = m ++ [(k, v)] := by
  have ha : m.any (fun p => p.1 == k) = false :=
    List.any_eq_false.mpr (by simpa using h)
  simp [mapSet, ha]

/-- The in-place-update pass of `Map.set` leaves entries with other keys
unchanged. -/
lemma map_update_skip {α : Type} (m : List (Nat × α)) (k : Nat) (w : α)
    (h : ∀ p ∈ m, p.1 ≠ k) :
    m.map (fun p => if p.1 == k then (k, w) else p) = m := by
  induction m with
  | nil => rfl
  | cons a t ih =>
      have ha : (a.1 == k) = false := beq_eq_false_iff_ne.mpr (h a (by simp))
      simp only [List.map_cons, ih (fun p hp => h p (by simp [hp])), ha,
        Bool.false_eq_true, if_false]

/-- A `Map.set` on a map whose last entry holds the key updates that entry
in place. -/
lemma mapSet_update_append {α : Type} (m : List (Nat × α)) (k : Nat) (v w : α)
    (h : ∀ p ∈ m, p.1 ≠ k) :
    mapSet (m ++ [(k, v)]) k w = m ++ [(k, w)] := by
  have ha : (m ++ [(k, v)]).any (fun p => p.1 == k) = true :=
    List.any_eq_true.mpr ⟨(k, v), by simp⟩
  simp only [mapSet, ha, if_pos, List.map_append, map_update_skip m k w h]
  simp

/-- Looking up a key that no entry of the prefix holds finds the
appended entry. -/
lemma mapLookup_append_fresh {α : Type} (m : List (Nat × α)) (k : Nat) (v : α)
    (h : ∀ p ∈ m, p.1 ≠ k) :
    mapLookup k (m ++ [(k, v)]) = some v := by
  have hn : m.find? (fun p => p.1 == k) = none :=
    List.find?_eq_none.mpr (by simpa using h)
  simp [mapLookup, List.find?_append, hn]

/-- Filtering out one key leaves lookups of every other key unchanged. -/
lemma find?_filter_ne {α : Type} (l : List (Nat × α)) (k id : Nat) (hne : k ≠ id) :
    (l.filter (fun p => p.1 != id)).find? (fun p => p.1 == k)
      = l.find? (fun p => p.1 == k) := by
  induction l with
  | nil => rfl
  | cons a t ih =>
      by_cases hk : a.1 = k
      · have hfa : (a.1 != id) = true := bne_iff_ne.mpr (by omega)
        have hpa : (a.1 == k) = true := beq_iff_eq.mpr hk
        simp [List.filter_cons, hfa, List.find?_cons, hpa]
      · have hpa : (a.1 == k) = false := beq_eq_false_iff_ne.mpr hk
        by_cases hid : a.1 = id
        · have hfa : (a.1 != id) = false := by simp [bne, beq_iff_eq, hid]
          simp [List.filter_cons, hfa, List.find?_cons, hpa, ih]
        · have hfa : (a.1 != id) = true := bne_iff_ne.mpr hid
          simp [List.filter_cons, hfa, List.find?_cons, hpa, ih]

namespace WebhookService

/-- C1 under test: the code's behavior at the failing input.  The claim
says `verifySignature` never throws; but `crypto.timingSafeEqual` throws
a `RangeError` when the supplied signature's byte length differs from
the 71-byte expected `sha256=<hex>` form, as here for the 1-byte
signature `x` with payload `""` and secret `k`. -/
theorem verifySignature_throws_on_short_signature :
    verifySignature [] [120] [107]
      = Except.error "Input buffers must have the same byte length" := by
  simp [verifySignature, timingSafeEqual, generateSignature_length]

/-- C2: signing is deterministic and produces `sha256=` plus the hex
HMAC-SHA256 digest of the payload keyed by the secret; verifying a
payload against its own signature yields `true`; verifying against the
signature of any input pair whose recomputed signature differs yields
`false` (never an error: generated signatures all have length 71). -/
theorem sign_deterministic_roundtrip_mismatch (p p2 s s2 : List Nat)
    (hne : generateSignature p2 s2 ≠ generateSignature p s) :
    generateSignature p s = generateSignature p s
    ∧ generateSignature p s = sigHeaderBytes ++ hexEncode (hmacSha256 s p)
    ∧ verifySignature p (generateSignature p s) s = .ok true
    ∧ verifySignature p2 (generateSignature p s) s2 = .ok false := by
  refine ⟨rfl, rfl, ?_, ?_⟩
  · simp [verifySignature, timingSafeEqual]
  · have hl : (generateSignature p s).length = (generateSignature p2 s2).length := by
      rw [generateSignature_length, generateSignature_length]
    have : (generateSignature p s == generateSignature p2 s2) = false :=
      beq_eq_false_iff_ne.mpr (fun h => hne h.symm)
    simp [verifySignature, timingSafeEqual, hl, this]

/-- C2 witness: concrete roundtrip and mismatch, with the two digests
computed outright. -/
theorem sign_deterministic_roundtrip_mismatch_witness :
    verifySignature [] (generateSignature [] [107]) [107] = .ok true
    ∧ verifySignature [97] (generateSignature [] [107]) [107] = .ok false :=
  match sign_deterministic_roundtrip_mismatch [] [97] [107] [107] (by decide) with
  | ⟨_, _, h3, h4⟩ => ⟨h3, h4⟩

/-- C3: registration with an unparseable URL or an empty event-type list
fails with the corresponding validation error.  Both throws happen
before any mutation, so an `Except.error` result leaves the caller's
registry exactly as it was (`registerWebhook` returns no new state on
error by construction, mirroring the source's throw-before-store). -/
theorem registerWebhook_validation (url : String) (events : List String)
    (secret : Option (List Nat)) (now : Nat) (st : ServiceState)
    (h : isValidURL url = false ∨ events = []) :
    registerWebhook url events secret now st = .error "Invalid webhook URL"
    ∨ registerWebhook url events secret now st
        = .error "At least one event type is required" := by
  rcases h with h | h
  · left
    simp [registerWebhook, h]
  · by_cases hu : isValidURL url
    · right
      simp [registerWebhook, hu, h]
    · left
      simp [registerWebhook, hu]

/-- C3 witness: registering `not-a-url`, and registering a valid URL with
no event types. -/
theorem registerWebhook_validation_witness :
    (registerWebhook "not-a-url" ["payout"] none 0
        { webhooks := [], deliveries := [], nextId := 0 }
        = .error "Invalid webhook URL"
      ∨ registerWebhook "not-a-url" ["payout"] none 0
          { webhooks := [], deliveries := [], nextId := 0 }
          = .error "At least one event type is required")
    ∧ (registerWebhook "https://example.com/hook" [] none 0
        { webhooks := [], deliveries := [], nextId := 0 }
        = .error "Invalid webhook URL"
      ∨ registerWebhook "https://example.com/hook" [] none 0
          { webhooks := [], deliveries := [], nextId := 0 }
          = .error "At least one event type is required") :=
  ⟨registerWebhook_validation "not-a-url" ["payout"] none 0 _ (Or.inl (by decide)),
   registerWebhook_validation "https://example.com/hook" [] none 0 _ (Or.inr rfl)⟩

/-- Helper: a fresh value stored under a fresh key appears exactly once
among the map's values. -/
lemma mapValues_count_fresh {α : Type} [DecidableEq α] (m : List (Nat × α))
    (k : Nat) (v : α) (h : ∀ p ∈ m, p.1 ≠ k) (hv : v ∉ mapValues m) :
    (mapValues (mapSet m k v)).count v = 1 := by
  rw [mapSet_fresh m k v h]
  simp only [mapValues, List.map_append, List.count_append]
  rw [List.count_eq_zero.mpr (by simpa [mapValues] using hv)]
  simp

/-- C4: a successful registration returns an `active` subscription whose
id differs from every previously stored subscription's id; the stored
map then yields it back under `getWebhook`, and `listWebhooks` contains
it exactly once. -/
theorem registerWebhook_fresh_and_stored (url : String) (events : List String)
    (secret : Option (List Nat)) (now : Nat) (st : ServiceState)
    (cfg : WebhookConfig) (st2 : ServiceState) (ems : List Emitted)
    (hwf : wfState st = true)
    (h : registerWebhook url events secret now st = .ok (cfg, st2, ems)) :
    cfg.active = true
    ∧ (∀ w ∈ listWebhooks st, w.id ≠ cfg.id)
    ∧ getWebhook cfg.id st2 = some cfg
    ∧ (listWebhooks st2).count cfg = 1 := by
  have hwf2 := hwf
  simp only [wfState, Bool.and_eq_true, List.all_eq_true] at hwf2
  have hw : ∀ p ∈ st.webhooks, p.1 < st.nextId ∧ p.2.id = p.1 := by
    intro p hp
    simpa using hwf2.1 p hp
  have hfresh : ∀ p ∈ st.webhooks, p.1 ≠ st.nextId :=
    fun p hp => Nat.ne_of_lt (hw p hp).1
  have hnotmem : ∀ (v : WebhookConfig), v.id = st.nextId → v ∉ mapValues st.webhooks := by
    intro v hvid hmem
    simp only [mapValues, List.mem_map] at hmem
    obtain ⟨p, hp, hpv⟩ := hmem
    have h2 := hw p hp
    rw [hpv] at h2
    omega
  by_cases hu : isValidURL url
  · by_cases he : events.length = 0
    · simp [registerWebhook, hu, he] at h
    · simp only [registerWebhook, hu, Bool.not_true, Bool.false_eq_true, if_false,
        he, if_neg he, Except.ok.injEq, Prod.mk.injEq] at h
      obtain ⟨hcfg, hst2, hem⟩ := h
      subst hcfg
      subst hst2
      refine ⟨rfl, ?_, ?_, ?_⟩
      · intro w hwmem
        simp only [listWebhooks, mapValues, List.mem_map] at hwmem
        obtain ⟨p, hp, hpv⟩ := hwmem
        have h2 := hw p hp
        rw [hpv] at h2
        show w.id ≠ st.nextId
        omega
      · show mapLookup st.nextId (mapSet st.webhooks st.nextId _) = _
        rw [mapSet_fresh st.webhooks st.nextId _ hfresh]
        exact mapLookup_append_fresh st.webhooks st.nextId _ hfresh
      · exact mapValues_count_fresh st.webhooks st.nextId _ hfresh (hnotmem _ rfl)
  · simp [registerWebhook, hu] at h

/-- The attempt loop never changes the record's owning webhook id. -/
lemma attemptLoop_final_webhookId (http : Nat → HttpOutcome) (now : Nat) :
    ∀ (fuel attempt : Nat) (d : WebhookDelivery),
      (attemptLoop http now attempt fuel d).final.webhookId = d.webhookId := by
  intro fuel
  induction fuel with
  | zero => intro attempt d; rfl
  | succ fuel ih =>
      intro attempt d
      cases hE : executeDelivery (http attempt) with
      | ok v => obtain ⟨s, b⟩ := v; simp [attemptLoop, hE]
      | error e =>
          by_cases hlt : attempt < maxRetries <;> simp [attemptLoop, hE, hlt, ih]

/-- One `sendWebhook` on a state whose delivery keys are below the
fresh-id counter appends exactly one record, owned by the given webhook,
and bumps the counter; the registry is untouched. -/
lemma sendWebhook_spec (http : Nat → HttpOutcome) (now : Nat)
    (w : WebhookConfig) (ev : WebhookEvent) (st : ServiceState)
    (h : ∀ p ∈ st.deliveries, p.1 < st.nextId) :
    ((sendWebhook http now w ev st).2.deliveries
        = st.deliveries ++ [(st.nextId, (sendWebhook http now w ev st).1.final)])
    ∧ ((sendWebhook http now w ev st).1.final.webhookId = w.id)
    ∧ ((sendWebhook http now w ev st).2.nextId = st.nextId + 1)
    ∧ ((sendWebhook http now w ev st).2.webhooks = st.webhooks) := by
  have hfresh : ∀ p ∈ st.deliveries, p.1 ≠ st.nextId :=
    fun p hp => Nat.ne_of_lt (h p hp)
  refine ⟨?_, attemptLoop_final_webhookId http now (maxRetries + 1) 0 _, rfl, rfl⟩
  show mapSet (mapSet st.deliveries st.nextId _) st.nextId _ = _
  rw [mapSet_fresh st.deliveries st.nextId _ hfresh,
      mapSet_update_append st.deliveries st.nextId _ _ hfresh]
  rfl

/-- The fan-out appends, in order, one delivery record per listed
webhook, each owned by its webhook; the registry is untouched. -/
lemma runDeliveries_deliveries (http : Nat → Nat → HttpOutcome) (now : Nat)
    (ev : WebhookEvent) :
    ∀ (ws : List WebhookConfig) (i : Nat) (st : ServiceState),
      (∀ p ∈ st.deliveries, p.1 < st.nextId) →
      ((runDeliveries http now ev ws i st).1.deliveries.map (fun p => p.2.webhookId)
          = st.deliveries.map (fun p => p.2.webhookId) ++ ws.map (fun w => w.id))
      ∧ ((runDeliveries http now ev ws i st).1.webhooks = st.webhooks) := by
  intro ws
  induction ws with
  | nil => intro i st h; simp [runDeliveries]
  | cons w ws ih =>
      intro i st h
      obtain ⟨hdel, hwid, hnext, hweb⟩ := sendWebhook_spec (http i) now w ev st h
      have hinv : ∀ p ∈ (sendWebhook (http i) now w ev st).2.deliveries,
          p.1 < (sendWebhook (http i) now w ev st).2.nextId := by
        rw [hdel, hnext]
        intro p hp
        rcases List.mem_append.mp hp with hp | hp
        · exact Nat.lt_succ_of_lt (h p hp)
        · rw [List.mem_singleton] at hp
          subst hp
          exact Nat.lt_succ_self st.nextId
      have hih := ih (i + 1) _ hinv
      constructor
      · show (runDeliveries http now ev ws (i + 1)
            (sendWebhook (http i) now w ev st).2).1.deliveries.map _ = _
        rw [hih.1, hdel]
        simp [hwid]
      · show (runDeliveries http now ev ws (i + 1)
            (sendWebhook (http i) now w ev st).2).1.webhooks = _
        rw [hih.2, hweb]

/-- C5: `triggerEvent` appends to the delivery store exactly one record
per stored subscription that is active and subscribed to the triggered
type — in registry order, each owned by its webhook — and none for any
other subscription. -/
theorem triggerEvent_matching_deliveries (http : Nat → Nat → HttpOutcome)
    (now : Nat) (type data : String) (st : ServiceState)
    (hwf : wfState st = true) :
    (triggerEvent http now type data st).1.deliveries.map (fun p => p.2.webhookId)
      = st.deliveries.map (fun p => p.2.webhookId)
        ++ ((listWebhooks st).filter
              (fun w => w.active && w.events.contains type)).map (fun w => w.id) := by
  have hwf2 := hwf
  simp only [wfState, Bool.and_eq_true, List.all_eq_true] at hwf2
  have hinv : ∀ p ∈ st.deliveries, p.1 < st.nextId + 1 := by
    intro p hp
    have := hwf2.2 p hp
    simp at this
    omega
  exact (runDeliveries_deliveries http now _ _ 0
    { st with nextId := st.nextId + 1 } hinv).1

/-- C10: when no stored subscription is both active and subscribed to
the triggered type, `triggerEvent` leaves the registry and the delivery
store unchanged and emits only the `event:triggered` notification. -/
theorem triggerEvent_no_match (http : Nat → Nat → HttpOutcome) (now : Nat)
    (type data : String) (st : ServiceState)
    (h : (listWebhooks st).filter (fun w => w.active && w.events.contains type) = []) :
    ((triggerEvent http now type data st).1.webhooks = st.webhooks)
    ∧ ((triggerEvent http now type data st).1.deliveries = st.deliveries)
    ∧ ((triggerEvent http now type data st).2
        = [Emitted.eventTriggered
            { type := type, data := data, timestamp := now, id := st.nextId }]) := by
  simp only [listWebhooks] at h
  refine ⟨?_, ?_, ?_⟩
  · show (runDeliveries http now _ ((mapValues st.webhooks).filter _) 0 _).1.webhooks = _
    rw [h]
    rfl
  · show (runDeliveries http now _ ((mapValues st.webhooks).filter _) 0 _).1.deliveries = _
    rw [h]
    rfl
  · show Emitted.eventTriggered _ :: (runDeliveries http now _ ((mapValues st.webhooks).filter _) 0 _).2 = _
    rw [h]
    rfl

lemma attemptFailsNonempty_spec (o : HttpOutcome)
    (h : attemptFailsNonempty o = true) :
    ∃ e, executeDelivery o = .error e ∧ e ≠ "" := by
  unfold attemptFailsNonempty at h
  cases hE : executeDelivery o with
  | ok v => rw [hE] at h; simp at h
  | error e => rw [hE] at h; simp at h; exact ⟨e, rfl, h⟩

/-- C6: when every one of the 4 HTTP attempts fails (each with a
non-empty error detail, as every non-2xx response produces), the record
terminates with `status = failed`, `attempts = 4`, a non-empty error
detail and a completed timestamp, and the backoff delays waited between
consecutive attempts are, in order, 1s, 5s and 15s — three delays for
four attempts, so none after the final failure. -/
theorem sendWebhook_all_attempts_fail (http : Nat → HttpOutcome) (now : Nat)
    (w : WebhookConfig) (ev : WebhookEvent) (st : ServiceState)
    (h : ∀ i, i < 4 → attemptFailsNonempty (http i) = true) :
    ((sendWebhook http now w ev st).1.final.status = .failed)
    ∧ ((sendWebhook http now w ev st).1.final.attempts = 4)
    ∧ (∃ e, (sendWebhook http now w ev st).1.final.error = some e ∧ e ≠ "")
    ∧ ((sendWebhook http now w ev st).1.final.completedAt = some now)
    ∧ ((sendWebhook http now w ev st).1.delays = [1000, 5000, 15000]) := by
  obtain ⟨e0, hE0, hne0⟩ := attemptFailsNonempty_spec _ (h 0 (by omega))
  obtain ⟨e1, hE1, hne1⟩ := attemptFailsNonempty_spec _ (h 1 (by omega))
  obtain ⟨e2, hE2, hne2⟩ := attemptFailsNonempty_spec _ (h 2 (by omega))
  obtain ⟨e3, hE3, hne3⟩ := attemptFailsNonempty_spec _ (h 3 (by omega))
  simp [sendWebhook, maxRetries, attemptLoop, hE0, hE1, hE2, hE3, retryDelays]
  exact hne3

/-- C7 as stated is false: a delivery whose first attempt fails with
`HTTP 500: err` and whose second attempt succeeds terminates with
`status = success` and `attempts = 2` but still carries the first
attempt's error message — the source never clears `delivery.error` on
success. -/
theorem success_after_failure_keeps_error :
    ((sendWebhook exHttpSecond 9 exConfig exEvent exState0).1.final.status
        = DeliveryStatus.success)
    ∧ ((sendWebhook exHttpSecond 9 exConfig exEvent exState0).1.final.attempts = 2)
    ∧ ((sendWebhook exHttpSecond 9 exConfig exEvent exState0).1.final.error
        = some "HTTP 500: err") := by
  refine ⟨?_, ?_, ?_⟩ <;> decide

/-- C7 amended: first attempt fails, second receives a 2xx response —
the record terminates with `status = success`, `attempts = 2`, exactly
one backoff wait, and nothing is written to `error` after the success;
the `error` field still holds the first attempt's message. -/
theorem sendWebhook_second_attempt_success (http : Nat → HttpOutcome)
    (now : Nat) (w : WebhookConfig) (ev : WebhookEvent) (st : ServiceState)
    (e : String) (c : Nat) (b : String)
    (h0 : executeDelivery (http 0) = .error e)
    (h1 : http 1 = .response c b) (hc : is2xx c = true) :
    ((sendWebhook http now w ev st).1.final.status = DeliveryStatus.success)
    ∧ ((sendWebhook http now w ev st).1.final.attempts = 2)
    ∧ ((sendWebhook http now w ev st).1.final.error = some e)
    ∧ ((sendWebhook http now w ev st).1.final.responseStatus = some c)
    ∧ ((sendWebhook http now w ev st).1.final.completedAt = some now)
    ∧ ((sendWebhook http now w ev st).1.delays = [1000]) := by
  have h1E : executeDelivery (http 1) = .ok (c, b) := by
    rw [h1]; simp [executeDelivery, hc]
  simp [sendWebhook, maxRetries, attemptLoop, h0, h1E, retryDelays]

/-- The attempt loop preserves the C8 invariant through every record
state it produces, and establishes it on the final record. -/
lemma attemptLoop_completedIffTerminal (http : Nat → HttpOutcome) (now : Nat) :
    ∀ (fuel attempt : Nat) (d : WebhookDelivery), completedIffTerminal d →
      completedIffTerminal (attemptLoop http now attempt fuel d).final
      ∧ ∀ x ∈ (attemptLoop http now attempt fuel d).states, completedIffTerminal x := by
  intro fuel
  induction fuel with
  | zero =>
      intro attempt d hd
      exact ⟨hd, by intro x hx; simp [attemptLoop] at hx⟩
  | succ fuel ih =>
      intro attempt d hd
      have hd1 : completedIffTerminal { d with attempts := attempt + 1 } := by
        simpa [completedIffTerminal] using hd
      cases hE : executeDelivery (http attempt) with
      | ok v =>
          obtain ⟨status, _body⟩ := v
          constructor
          · simp [attemptLoop, hE, completedIffTerminal]
          · intro x hx
            simp [attemptLoop, hE] at hx
            rcases hx with hx | hx <;> subst hx
            · exact hd1
            · simp [completedIffTerminal]
      | error e =>
          have hd2 : completedIffTerminal
              { d with attempts := attempt + 1, error := some e } := by
            simpa [completedIffTerminal] using hd
          by_cases hlt : attempt < maxRetries
          · have hrec := ih (attempt + 1) { d with attempts := attempt + 1, error := some e } hd2
            constructor
            · simpa [attemptLoop, hE, hlt] using hrec.1
            · intro x hx
              simp [attemptLoop, hE, hlt] at hx
              rcases hx with hx | hx | hx
              · subst hx; exact hd1
              · subst hx; exact hd2
              · exact hrec.2 x hx
          · have hd3 : completedIffTerminal
                { d with attempts := attempt + 1, error := some e,
                         status := DeliveryStatus.failed, completedAt := some now } := by
              simp [completedIffTerminal]
            have hrec := ih (attempt + 1)
              { d with attempts := attempt + 1, error := some e,
                       status := DeliveryStatus.failed, completedAt := some now } hd3
            constructor
            · simpa [attemptLoop, hE, hlt] using hrec.1
            · intro x hx
              simp [attemptLoop, hE, hlt] at hx
              rcases hx with hx | hx | hx | hx
              · subst hx; exact hd1
              · subst hx; exact hd2
              · subst hx; exact hd3
              · exact hrec.2 x hx

/-- C8: every state of a delivery record observable in the delivery
store during `sendWebhook` — its creation as `pending`, each state at an
`await` boundary, and the terminal state (the source mutates the stored
record in place, so the store always holds the record's current state) —
has its completed timestamp set if and only if its status is `success`
or `failed`. -/
theorem delivery_completed_iff_terminal (http : Nat → HttpOutcome) (now : Nat)
    (w : WebhookConfig) (ev : WebhookEvent) (st : ServiceState)
    (d : WebhookDelivery)
    (hd : d ∈ (sendWebhook http now w ev st).1.states) :
    d.completedAt.isSome = true ↔ (d.status = DeliveryStatus.success ∨ d.status = DeliveryStatus.failed) := by
  have h0 : completedIffTerminal
      { id := st.nextId, webhookId := w.id, eventId := ev.id,
        status := .pending, attempts := 0, responseStatus := none,
        responseBody := none, error := none, createdAt := now,
        completedAt := none } := by
    simp [completedIffTerminal]
  have hloop := attemptLoop_completedIffTerminal http now (maxRetries + 1) 0 _ h0
  simp only [sendWebhook] at hd
  rcases List.mem_cons.mp hd with hx | hx
  · subst hx; exact h0
  · exact hloop.2 d hx

/-- C9: `deleteWebhook` reports whether the id was present, removes that
subscription and only that one, and leaves the delivery store — hence
everything `getDeliveries` returns for any webhook — unchanged. -/
theorem deleteWebhook_frame (id : Nat) (st : ServiceState) :
    ((deleteWebhook id st).1 = (mapLookup id st.webhooks).isSome)
    ∧ (mapLookup id (deleteWebhook id st).2.1.webhooks = none)
    ∧ (∀ k, k ≠ id →
        mapLookup k (deleteWebhook id st).2.1.webhooks = mapLookup k st.webhooks)
    ∧ ((deleteWebhook id st).2.1.deliveries = st.deliveries)
    ∧ (∀ wid, getDeliveries (some wid) (deleteWebhook id st).2.1
        = getDeliveries (some wid) st) := by
  refine ⟨?_, ?_, ?_, rfl, fun wid => rfl⟩
  · show st.webhooks.any (fun p => p.1 == id)
      = ((st.webhooks.find? (fun p => p.1 == id)).map Prod.snd).isSome
    rw [Bool.eq_iff_iff]
    constructor
    · intro h
      obtain ⟨x, hx, hpx⟩ := List.any_eq_true.mp h
      have : (st.webhooks.find? (fun p => p.1 == id)).isSome = true :=
        List.find?_isSome.mpr ⟨x, hx, hpx⟩
      simpa [Option.map_eq_map, Option.isSome_map] using this
    · intro h
      have : (st.webhooks.find? (fun p => p.1 == id)).isSome = true := by
        simpa [Option.map_eq_map, Option.isSome_map] using h
      obtain ⟨x, hx, hpx⟩ := List.find?_isSome.mp this
      exact List.any_eq_true.mpr ⟨x, hx, hpx⟩
  · show mapLookup id (mapDelete id st.webhooks) = none
    have hnone : (st.webhooks.filter (fun p => p.1 != id)).find?
        (fun p => p.1 == id) = none := by
      rw [List.find?_eq_none]
      intro p hp
      have := List.of_mem_filter hp
      simpa [bne] using this
    simp [mapLookup, mapDelete, hnone]
  · intro k hk
    show mapLookup k (mapDelete id st.webhooks) = mapLookup k st.webhooks
    simp only [mapLookup, mapDelete]
    rw [find?_filter_ne st.webhooks k id hk]

/-! ## Witness instantiations -/

/-- C4 witness: registering on the empty state. -/
theorem registerWebhook_fresh_and_stored_witness :
    exConfig.active = true
    ∧ getWebhook exConfig.id
        { webhooks := [(0, exConfig)], deliveries := [], nextId := 1 } = some exConfig
    ∧ (listWebhooks
        { webhooks := [(0, exConfig)], deliveries := [], nextId := 1 }).count exConfig = 1 :=
  match registerWebhook_fresh_and_stored "https://example.com/hook" ["payout"] none 0
      exState0 exConfig { webhooks := [(0, exConfig)], deliveries := [], nextId := 1 }
      [Emitted.webhookRegistered exConfig] (by decide) rfl with
  | ⟨h1, _, h3, h4⟩ => ⟨h1, h3, h4⟩

/-- C5 witness: one active matching, one inactive, one disjoint subscription. -/
theorem triggerEvent_matching_deliveries_witness :
    (triggerEvent exHttpOk 0 "payout" "d" exStateFull).1.deliveries.map
        (fun p => p.2.webhookId)
      = exStateFull.deliveries.map (fun p => p.2.webhookId)
        ++ ((listWebhooks exStateFull).filter
              (fun w => w.active && w.events.contains "payout")).map (fun w => w.id) :=
  triggerEvent_matching_deliveries exHttpOk 0 "payout" "d" exStateFull (by decide)

/-- C6 witness: a destination answering HTTP 500 on all attempts. -/
theorem sendWebhook_all_attempts_fail_witness :
    ((sendWebhook exHttpFail 0 exConfig exEvent exState0).1.final.status
        = DeliveryStatus.failed)
    ∧ ((sendWebhook exHttpFail 0 exConfig exEvent exState0).1.final.attempts = 4)
    ∧ ((sendWebhook exHttpFail 0 exConfig exEvent exState0).1.delays
        = [1000, 5000, 15000]) :=
  match sendWebhook_all_attempts_fail exHttpFail 0 exConfig exEvent exState0 (by decide) with
  | ⟨h1, h2, _, _, h5⟩ => ⟨h1, h2, h5⟩

/-- C7 witness: failure then HTTP 200. -/
theorem sendWebhook_second_attempt_success_witness :
    ((sendWebhook exHttpSecond 9 exConfig exEvent exState0).1.delays = [1000])
    ∧ ((sendWebhook exHttpSecond 9 exConfig exEvent exState0).1.final.responseStatus
        = some 200) :=
  match sendWebhook_second_attempt_success exHttpSecond 9 exConfig exEvent exState0
      "HTTP 500: err" 200 "ok" rfl rfl rfl with
  | ⟨_, _, _, h4, _, h6⟩ => ⟨h6, h4⟩

/-- C8 witness: the freshly created pending record. -/
theorem delivery_completed_iff_terminal_witness :
    exDelivery0.completedAt.isSome = true
      ↔ (exDelivery0.status = DeliveryStatus.success
          ∨ exDelivery0.status = DeliveryStatus.failed) :=
  delivery_completed_iff_terminal exHttpFail 0 exConfig exEvent exState0
    exDelivery0 (by decide)

/-- C9 witness: deleting one webhook leaves the rest and all deliveries. -/
theorem deleteWebhook_frame_witness :
    (mapLookup 2 (deleteWebhook 0 exStateFull).2.1.webhooks
      = mapLookup 2 exStateFull.webhooks)
    ∧ ((deleteWebhook 0 exStateFull).2.1.deliveries = exStateFull.deliveries) :=
  match deleteWebhook_frame 0 exStateFull with
  | ⟨_, _, h3, h4, _⟩ => ⟨h3 2 (by decide), h4⟩

/-- C10 witness: a type no stored subscription listens to. -/
theorem triggerEvent_no_match_witness :
    ((triggerEvent exHttpOk 0 "refund" "d" exStateFull).1.deliveries
      = exStateFull.deliveries)
    ∧ ((triggerEvent exHttpOk 0 "refund" "d" exStateFull).2
        = [Emitted.eventTriggered { type := "refund", data := "d", timestamp := 0, id := 3 }]) :=
  match triggerEvent_no_match exHttpOk 0 "refund" "d" exStateFull (by decide) with
  | ⟨_, h2, h3⟩ => ⟨h2, h3⟩

end WebhookService

end Sorosave
